import Mathlib

/-! pink-otel: value encoder and log record assembler

A shallow embedding of `otel.go` (package `otel` of `pink-tools/pink-otel`).

* `toAnyValue` is the type switch of `otel.go:28-87`, over a sum type `GoValue`
  of the dynamic types a Go `any` can hold.
* `emit` is `otel.go:89-141`; the Go function returns nothing, so the model
  returns what it built (the log record, the envelope) and the sequence of
  `os.Stdout.Write` calls it issued.
* `Debug`, `Info`, `Warn`, `Error` are `otel.go:143-173`.

Conventions.  Machine integers are mathematical integers with the Go
conversions written out (`int64`, `uint64` wrap modulo `2^64`).  Floating
point values are IEEE-754 bit patterns.  A Go map is the list of its entries in
the order a `range` statement visits them; keys of a Go map are pairwise
distinct, which theorems that need it take as a hypothesis.  A Go value of
type `any` is a finite tree, so cyclic container graphs are not values of
`GoValue`.
-/

namespace PinkOtel

/-! ## Go scalars -/

/-- A Go `byte` (`uint8`). -/
abbrev byte := Fin 256

/-- An IEEE-754 binary32 value, by its 32-bit pattern. -/
structure float32 where
  bits : Nat
deriving DecidableEq, Repr

/-- An IEEE-754 binary64 value, by its 64-bit pattern. -/
structure float64 where
  bits : Nat
deriving DecidableEq, Repr

/-- Go conversion `int64(x)` of an integer value of any integer type: the
value is kept when it is representable and wraps modulo `2^64` otherwise. -/
def int64 (x : Int) : Int :=
  (x + 2 ^ 63) % 2 ^ 64 - 2 ^ 63

/-- Go conversion `uint64(x)` of an integer value: the value modulo `2^64`. -/
def uint64 (x : Int) : Nat :=
  (x % 2 ^ 64).toNat

/-- Go conversion `uint32(x)` of an integer value: the value modulo `2^32`. -/
def uint32 (x : Int) : Nat :=
  (x % 2 ^ 32).toNat

/-- Go conversion `float64(x)` of a `float32`: the exact widening of the
binary32 value.  Zeros and infinities keep their sign, subnormal inputs are
normalised, and a NaN keeps its payload with the quiet bit set. -/
def float64.ofFloat32 (x : float32) : float64 :=
  let sign := x.bits / 2 ^ 31 % 2
  let e := x.bits / 2 ^ 23 % 256
  let m := x.bits % 2 ^ 23
  if e = 255 then
    if m = 0 then ⟨sign * 2 ^ 63 + 2047 * 2 ^ 52⟩
    else ⟨sign * 2 ^ 63 + 2047 * 2 ^ 52 + 2 ^ 51 + m % 2 ^ 22 * 2 ^ 29⟩
  else if e = 0 then
    if m = 0 then ⟨sign * 2 ^ 63⟩
    else
      let p := Nat.log2 m
      ⟨sign * 2 ^ 63 + (p + 874) * 2 ^ 52 + (m - 2 ^ p) * 2 ^ (52 - p)⟩
  else ⟨sign * 2 ^ 63 + (e + 896) * 2 ^ 52 + m * 2 ^ 29⟩

/-! ## OTLP common/v1 messages -/

mutual
/-- The message `commonv1.AnyValue`: its oneof field `Value` is either nil
(`unset`) or holds exactly one of the seven wrappers. -/
inductive AnyValue where
  | unset
  | stringValue (StringValue : String)
  | boolValue (BoolValue : Bool)
  | intValue (IntValue : Int)
  | doubleValue (DoubleValue : float64)
  | arrayValue (Values : List AnyValue)
  | kvlistValue (Values : List KeyValue)
  | bytesValue (BytesValue : List byte)
/-- The message `commonv1.KeyValue`. -/
inductive KeyValue where
  | mk (Key : String) (Value : AnyValue)
end

/-- Field `Key` of a `KeyValue`. -/
def KeyValue.Key : KeyValue → String
  | .mk k _ => k

/-- Field `Value` of a `KeyValue`. -/
def KeyValue.Value : KeyValue → AnyValue
  | .mk _ v => v

/-- The seven variants of the oneof of `AnyValue`. -/
inductive Variant where
  | String | Bool | Int | Double | Bytes | Array | Map
deriving DecidableEq, Repr

/-- Which variant of the oneof is populated, `none` when the oneof is nil. -/
def AnyValue.variant? : AnyValue → Option Variant
  | .unset => none
  | .stringValue _ => some .String
  | .boolValue _ => some .Bool
  | .intValue _ => some .Int
  | .doubleValue _ => some .Double
  | .arrayValue _ => some .Array
  | .kvlistValue _ => some .Map
  | .bytesValue _ => some .Bytes

mutual
/-- Every `AnyValue` of the tree, the root and all nested ones, has its oneof
populated. -/
def AnyValue.populated : AnyValue → Bool
  | .unset => false
  | .stringValue _ => true
  | .boolValue _ => true
  | .intValue _ => true
  | .doubleValue _ => true
  | .arrayValue vs => AnyValue.populatedList vs
  | .kvlistValue kvs => KeyValue.populatedList kvs
  | .bytesValue _ => true
/-- All values of a list are populated throughout. -/
def AnyValue.populatedList : List AnyValue → Bool
  | [] => true
  | v :: vs => AnyValue.populated v && AnyValue.populatedList vs
/-- The value of a `KeyValue` is populated throughout. -/
def KeyValue.populated : KeyValue → Bool
  | .mk _ v => AnyValue.populated v
/-- All entries of a list hold values populated throughout. -/
def KeyValue.populatedList : List KeyValue → Bool
  | [] => true
  | kv :: kvs => KeyValue.populated kv && KeyValue.populatedList kvs
end

/-! ## Go values of type `any` -/

/-- Dynamic types that no case of the type switch of `toAnyValue` names: the
nil interface, three slice types outside the recognised ones, and `custom`,
a value of any other type (a struct, a pointer, a named type, a slice such as
`[]float64`, ...) given by the text that `fmt` prints for it under `%v`. -/
inductive OtherValue where
  | nil
  | sliceBool (val : List Bool)
  | sliceInt64 (val : List Int)
  | sliceSliceString (val : List (List String))
  | custom (text : String)
deriving DecidableEq, Repr

/-- A Go value of type `any`, by dynamic type.  The first nineteen
constructors are the types named by the cases of `toAnyValue`, in the order of
the switch; `other` is every remaining dynamic type. -/
inductive GoValue where
  | string (val : String)
  | bool (val : Bool)
  | int (val : Int)
  | int8 (val : Int)
  | int16 (val : Int)
  | int32 (val : Int)
  | int64 (val : Int)
  | uint (val : Nat)
  | uint8 (val : Nat)
  | uint16 (val : Nat)
  | uint32 (val : Nat)
  | uint64 (val : Nat)
  | float32 (val : float32)
  | float64 (val : float64)
  | bytes (val : List byte)
  | sliceAny (val : List GoValue)
  | sliceString (val : List String)
  | sliceInt (val : List Int)
  | mapStringAny (val : List (String × GoValue))
  | other (val : OtherValue)

/-- Text that `fmt` prints for a sequence under `%v`: the elements separated by
one blank, between square brackets. -/
def fmtSlice (elems : List String) : String :=
  "[" ++ " ".intercalate elems ++ "]"

/-- The text `fmt.Sprintf("%v", v)` of the Go standard library for a value of
an unrecognised type: `<nil>` for the nil interface, the bracketed elements
for a slice. -/
def fmtSprintfV : OtherValue → String
  | .nil => "<nil>"
  | .sliceBool val => fmtSlice (val.map fun b => if b then "true" else "false")
  | .sliceInt64 val => fmtSlice (val.map fun n => toString n)
  | .sliceSliceString val => fmtSlice (val.map fmtSlice)
  | .custom text => text

/-! ## The value encoder -/

/-- The function `toAnyValue` of `otel.go:28-87`. -/
def toAnyValue : GoValue → AnyValue
  | .string val => .stringValue val
  | .bool val => .boolValue val
  | .int val => .intValue (int64 val)
  | .int8 val => .intValue (int64 val)
  | .int16 val => .intValue (int64 val)
  | .int32 val => .intValue (int64 val)
  | .int64 val => .intValue val
  | .uint val => .intValue (int64 val)
  | .uint8 val => .intValue (int64 val)
  | .uint16 val => .intValue (int64 val)
  | .uint32 val => .intValue (int64 val)
  | .uint64 val => .intValue (int64 val)
  | .float32 val => .doubleValue (float64.ofFloat32 val)
  | .float64 val => .doubleValue val
  | .bytes val => .bytesValue val
  | .sliceAny val =>
    .arrayValue (val.attach.map fun item => toAnyValue item.1)
  | .sliceString val =>
    .arrayValue (val.attach.map fun item => toAnyValue (.string item.1))
  | .sliceInt val =>
    .arrayValue (val.attach.map fun item => toAnyValue (.int item.1))
  | .mapStringAny val =>
    .kvlistValue (val.attach.foldl
      (fun kvs e => kvs ++ [KeyValue.mk e.1.1 (toAnyValue e.1.2)]) [])
  | .other val => .stringValue (fmtSprintfV val)
termination_by v => sizeOf v
decreasing_by
  all_goals simp_wf
  · have := List.sizeOf_lt_of_mem item.2
    omega
  · have := List.sizeOf_lt_of_mem item.2
    omega
  · have := List.sizeOf_lt_of_mem item.2
    omega
  · have := List.sizeOf_lt_of_mem e.2
    have h : sizeOf e.1 = 1 + sizeOf e.1.1 + sizeOf e.1.2 := by
      rcases e.1 with ⟨k, v⟩
      rfl
    omega

/-! ## OTLP logs/v1 and resource/v1 messages -/

/-- The message `logsv1.LogRecord`, with the fields that `emit` touches.  The
defaults are the Go zero values of fields a composite literal leaves out. -/
structure LogRecord where
  TimeUnixNano : Nat := 0
  ObservedTimeUnixNano : Nat := 0
  SeverityNumber : Int := 0
  SeverityText : String := ""
  Body : AnyValue := .unset
  Attributes : List KeyValue := []
  Flags : Nat := 0
  TraceId : List byte := []
  SpanId : List byte := []

/-- The message `commonv1.InstrumentationScope`. -/
structure InstrumentationScope where
  Name : String
  Version : String

/-- The message `logsv1.ScopeLogs`. -/
structure ScopeLogs where
  Scope : InstrumentationScope
  LogRecords : List LogRecord

/-- The message `resourcev1.Resource`. -/
structure Resource where
  Attributes : List KeyValue

/-- The message `logsv1.ResourceLogs`. -/
structure ResourceLogs where
  Resource : Resource
  ScopeLogs : List ScopeLogs

/-- The message `logsv1.LogsData`. -/
structure LogsData where
  ResourceLogs : List ResourceLogs

/-- Modelled from the spec: the enum constant
`logsv1.SeverityNumber_SEVERITY_NUMBER_DEBUG` of the imported OTLP logs package,
which `otel.go` does not declare; the spec fixes it by the OTLP
severity-number scale, on which DEBUG is 5. -/
def SeverityNumber_SEVERITY_NUMBER_DEBUG : Int := 5

/-- Modelled from the spec: the enum constant
`logsv1.SeverityNumber_SEVERITY_NUMBER_INFO` of the imported OTLP logs package,
which `otel.go` does not declare; the spec fixes it by the OTLP
severity-number scale, on which INFO is 9. -/
def SeverityNumber_SEVERITY_NUMBER_INFO : Int := 9

/-- Modelled from the spec: the enum constant
`logsv1.SeverityNumber_SEVERITY_NUMBER_WARN` of the imported OTLP logs package,
which `otel.go` does not declare; the spec fixes it by the OTLP
severity-number scale, on which WARN is 13. -/
def SeverityNumber_SEVERITY_NUMBER_WARN : Int := 13

/-- Modelled from the spec: the enum constant
`logsv1.SeverityNumber_SEVERITY_NUMBER_ERROR` of the imported OTLP logs package,
which `otel.go` does not declare; the spec fixes it by the OTLP
severity-number scale, on which ERROR is 17. -/
def SeverityNumber_SEVERITY_NUMBER_ERROR : Int := 17

/-! ## Trace correlation (package `go.opentelemetry.io/otel/trace`) -/

/-- A `trace.SpanContext`: a 16-byte trace id, an 8-byte span id and the
trace flags byte. -/
structure SpanContext where
  traceID : List byte
  spanID : List byte
  traceFlags : byte
  traceID_len : traceID.length = 16
  spanID_len : spanID.length = 8

/-- The zero value `trace.SpanContext{}`. -/
def SpanContext.zero : SpanContext where
  traceID := List.replicate 16 0
  spanID := List.replicate 8 0
  traceFlags := 0
  traceID_len := rfl
  spanID_len := rfl

/-- Method `SpanContext.IsValid` of the imported trace package: the trace id
and the span id are both different from the all-zero id. -/
def SpanContext.IsValid (sc : SpanContext) : Bool :=
  !(sc.traceID.all fun b => b == 0) && !(sc.spanID.all fun b => b == 0)

/-- Method `SpanContext.TraceID`. -/
def SpanContext.TraceID (sc : SpanContext) : List byte := sc.traceID

/-- Method `SpanContext.SpanID`. -/
def SpanContext.SpanID (sc : SpanContext) : List byte := sc.spanID

/-- Method `SpanContext.TraceFlags`. -/
def SpanContext.TraceFlags (sc : SpanContext) : byte := sc.traceFlags

/-- A `context.Context`, by the one thing `emit` reads from it: the span
context of the span it carries, if it carries one. -/
structure Context where
  span : Option SpanContext

/-- The function `trace.SpanContextFromContext` of the imported trace package:
the span context of the span carried by the context, the zero span context
when it carries none. -/
def SpanContextFromContext (ctx : Context) : SpanContext :=
  ctx.span.getD SpanContext.zero

/-! ## The record assembler -/

/-- A Go `map[string]any` handed to `emit`: `none` is the nil map, `some`
lists the entries in the order a `range` statement visits them. -/
abbrev MapStringAny := Option (List (String × GoValue))

/-- Entries visited by `for k, v := range m`: none for a nil map. -/
def MapStringAny.range (m : MapStringAny) : List (String × GoValue) :=
  m.getD []

/-- The package-level variables `serviceName` and `serviceVersion`. -/
structure Globals where
  serviceName : String := ""
  serviceVersion : String := ""

/-- The function `Init` of `otel.go:23-26`. -/
def Init (name version : String) (_ : Globals) : Globals :=
  { serviceName := name, serviceVersion := version }

/-- What `emit` takes from outside `otel.go`: the package constant `Version`
(declared in another file of the package), the reading of the clock
`time.Now().UnixNano()`, and the serializer `marshaler.Marshal`, which returns
the JSON text or fails. -/
structure Env where
  Version : String
  UnixNano : Int
  Marshal : LogsData → Except String (List byte)

/-- What a call of `emit` did: the log record and the envelope it built and
the `os.Stdout.Write` calls it issued, in order, each with its argument. -/
structure Emission where
  logRecord : LogRecord
  data : LogsData
  writes : List (List byte)

/-- The function `emit` of `otel.go:89-141`. -/
def emit (g : Globals) (env : Env) (ctx : Context) (severityNumber : Int)
    (severityText : String) (body : String) (attrs : MapStringAny) : Emission :=
  let now := uint64 env.UnixNano
  let kvAttrs : List KeyValue :=
    attrs.range.foldl (fun kvAttrs e => kvAttrs ++ [KeyValue.mk e.1 (toAnyValue e.2)]) []
  let logRecord : LogRecord :=
    { TimeUnixNano := now
      ObservedTimeUnixNano := now
      SeverityNumber := severityNumber
      SeverityText := severityText
      Body := .stringValue body
      Attributes := kvAttrs }
  let spanCtx := SpanContextFromContext ctx
  let logRecord : LogRecord :=
    if spanCtx.IsValid then
      { logRecord with
        TraceId := spanCtx.TraceID
        SpanId := spanCtx.SpanID
        Flags := uint32 spanCtx.TraceFlags.val }
    else logRecord
  let data : LogsData :=
    { ResourceLogs := [
        { Resource :=
            { Attributes := [
                .mk "service.name" (.stringValue g.serviceName),
                .mk "service.version" (.stringValue g.serviceVersion),
                .mk "telemetry.sdk.name" (.stringValue "pink-otel"),
                .mk "telemetry.sdk.language" (.stringValue "go"),
                .mk "telemetry.sdk.version" (.stringValue env.Version)] }
          ScopeLogs := [
            { Scope := { Name := "github.com/pink-tools/pink-otel", Version := env.Version }
              LogRecords := [logRecord] }] }] }
  let jsonBytes : List byte :=
    match env.Marshal data with
    | .ok bs => bs
    | .error _ => []
  { logRecord := logRecord, data := data, writes := [jsonBytes, [10]] }

/-- The function `Debug` of `otel.go:143-149`. -/
def Debug (g : Globals) (env : Env) (ctx : Context) (body : String)
    (attrs : List MapStringAny) : Emission :=
  let a : MapStringAny := if h : 0 < attrs.length then attrs[0] else none
  emit g env ctx SeverityNumber_SEVERITY_NUMBER_DEBUG "DEBUG" body a

/-- The function `Info` of `otel.go:151-157`. -/
def Info (g : Globals) (env : Env) (ctx : Context) (body : String)
    (attrs : List MapStringAny) : Emission :=
  let a : MapStringAny := if h : 0 < attrs.length then attrs[0] else none
  emit g env ctx SeverityNumber_SEVERITY_NUMBER_INFO "INFO" body a

/-- The function `Warn` of `otel.go:159-165`. -/
def Warn (g : Globals) (env : Env) (ctx : Context) (body : String)
    (attrs : List MapStringAny) : Emission :=
  let a : MapStringAny := if h : 0 < attrs.length then attrs[0] else none
  emit g env ctx SeverityNumber_SEVERITY_NUMBER_WARN "WARN" body a

/-- The function `Error` of `otel.go:167-173`. -/
def Error (g : Globals) (env : Env) (ctx : Context) (body : String)
    (attrs : List MapStringAny) : Emission :=
  let a : MapStringAny := if h : 0 < attrs.length then attrs[0] else none
  emit g env ctx SeverityNumber_SEVERITY_NUMBER_ERROR "ERROR" body a

/-! ## Vocabulary of the specification -/

/-- The elements of a Go slice other than a `[]byte`, each as a value of type
`any`, in order; `none` for a value that is no such slice. -/
def GoValue.sliceElems? : GoValue → Option (List GoValue)
  | .sliceAny val => some val
  | .sliceString val => some (val.map GoValue.string)
  | .sliceInt val => some (val.map GoValue.int)
  | .other (.sliceBool val) => some (val.map GoValue.bool)
  | .other (.sliceInt64 val) => some (val.map GoValue.int64)
  | .other (.sliceSliceString val) => some (val.map GoValue.sliceString)
  | _ => none

/-- The keys of a map, in the order of its entries. -/
def keys (m : List (String × GoValue)) : List String :=
  m.map Prod.fst

/-! ## The output sink -/

/-- The bytes the sink holds after a sequence of write calls, each write being
atomic: the arguments of the calls, one after the other. -/
def sinkOutput : List (List byte) → List byte
  | [] => []
  | w :: ws => w ++ sinkOutput ws

/-- All the orders in which the sink can receive the write calls of two
concurrent callers: each caller issues its own calls in order, and the calls
of the two callers are merged in every possible way. -/
def interleavings {α : Type} : List α → List α → List (List α)
  | [], ys => [ys]
  | x :: xs, [] => [x :: xs]
  | x :: xs, y :: ys =>
    (interleavings xs (y :: ys)).map (fun s => x :: s)
      ++ (interleavings (x :: xs) ys).map (fun s => y :: s)

/-- The output holds one complete line for each of the two texts and nothing
else: one text and a newline, then the other text and a newline. -/
def oneLinePerCall (j1 j2 out : List byte) : Prop :=
  out = j1 ++ [10] ++ (j2 ++ [10]) ∨ out = j2 ++ [10] ++ (j1 ++ [10])

/-! ## Keys -/

mutual
/-- Every key of every mapping in the value, at any nesting depth, is a
non-empty string. -/
def GoValue.keysNonEmpty : GoValue → Bool
  | .sliceAny val => GoValue.keysNonEmptyList val
  | .mapStringAny val => GoValue.keysNonEmptyEntries val
  | _ => true
/-- Every value of the list has non-empty keys throughout. -/
def GoValue.keysNonEmptyList : List GoValue → Bool
  | [] => true
  | v :: vs => GoValue.keysNonEmpty v && GoValue.keysNonEmptyList vs
/-- Every entry of the list has a non-empty key and a value with non-empty
keys throughout. -/
def GoValue.keysNonEmptyEntries : List (String × GoValue) → Bool
  | [] => true
  | (k, v) :: es => (k != "" && GoValue.keysNonEmpty v) && GoValue.keysNonEmptyEntries es
end

mutual
/-- Every `KeyValue` in the value, at any nesting depth, has a non-empty key. -/
def AnyValue.keysNonEmpty : AnyValue → Bool
  | .arrayValue vs => AnyValue.keysNonEmptyList vs
  | .kvlistValue kvs => KeyValue.keysNonEmptyList kvs
  | _ => true
/-- Every value of the list has non-empty keys throughout. -/
def AnyValue.keysNonEmptyList : List AnyValue → Bool
  | [] => true
  | v :: vs => AnyValue.keysNonEmpty v && AnyValue.keysNonEmptyList vs
/-- The key of the `KeyValue` is non-empty and so is every key in its value. -/
def KeyValue.keysNonEmpty : KeyValue → Bool
  | .mk k v => k != "" && AnyValue.keysNonEmpty v
/-- Every entry of the list has non-empty keys throughout. -/
def KeyValue.keysNonEmptyList : List KeyValue → Bool
  | [] => true
  | kv :: kvs => KeyValue.keysNonEmpty kv && KeyValue.keysNonEmptyList kvs
end

/-! ## Unfolding lemmas for the encoder -/

theorem foldl_append_singleton {α β : Type} (f : α → β) (l : List α) (init : List β) :
    l.foldl (fun acc e => acc ++ [f e]) init = init ++ l.map f := by
  induction l generalizing init with
  | nil => simp
  | cons x xs ih => simp [ih]

theorem toAnyValue_sliceAny (val : List GoValue) :
    toAnyValue (.sliceAny val) = .arrayValue (val.map toAnyValue) := by
  rw [toAnyValue]
  congr 1
  exact List.attach_map_coe val toAnyValue

theorem toAnyValue_sliceString (val : List String) :
    toAnyValue (.sliceString val) = .arrayValue (val.map fun item => toAnyValue (.string item)) := by
  rw [toAnyValue]
  congr 1
  exact List.attach_map_coe val fun item => toAnyValue (.string item)

theorem toAnyValue_sliceInt (val : List Int) :
    toAnyValue (.sliceInt val) = .arrayValue (val.map fun item => toAnyValue (.int item)) := by
  rw [toAnyValue]
  congr 1
  exact List.attach_map_coe val fun item => toAnyValue (.int item)

theorem toAnyValue_mapStringAny (val : List (String × GoValue)) :
    toAnyValue (.mapStringAny val)
      = .kvlistValue (val.map fun e => KeyValue.mk e.1 (toAnyValue e.2)) := by
  rw [toAnyValue]
  congr 1
  rw [foldl_append_singleton (fun e : { x // x ∈ val } => KeyValue.mk e.1.1 (toAnyValue e.1.2))]
  simp only [List.nil_append]
  exact List.attach_map_coe val fun e => KeyValue.mk e.1 (toAnyValue e.2)

/-! ## The encoder is total -/


theorem populatedList_iff (l : List AnyValue) :
    AnyValue.populatedList l = true ↔ ∀ a ∈ l, AnyValue.populated a = true := by
  induction l with
  | nil => simp [AnyValue.populatedList]
  | cons x xs ih => simp [AnyValue.populatedList, ih]

theorem kvPopulatedList_iff (l : List KeyValue) :
    KeyValue.populatedList l = true ↔ ∀ kv ∈ l, AnyValue.populated kv.Value = true := by
  induction l with
  | nil => simp [KeyValue.populatedList]
  | cons x xs ih =>
    cases x with
    | mk k v => simp [KeyValue.populatedList, KeyValue.populated, KeyValue.Value, ih]

theorem toAnyValue_populated_aux (n : Nat) :
    ∀ v : GoValue, sizeOf v ≤ n → (toAnyValue v).populated = true := by
  induction n with
  | zero =>
    intro v h
    cases v <;> simp at h
  | succ n ih =>
    intro v h
    cases v with
    | sliceAny val =>
      rw [toAnyValue_sliceAny, AnyValue.populated, populatedList_iff]
      intro a ha
      obtain ⟨x, hx, rfl⟩ := List.mem_map.1 ha
      have := List.sizeOf_lt_of_mem hx
      simp at h
      exact ih x (by omega)
    | sliceString val =>
      rw [toAnyValue_sliceString, AnyValue.populated, populatedList_iff]
      intro a ha
      obtain ⟨x, _, rfl⟩ := List.mem_map.1 ha
      simp [toAnyValue, AnyValue.populated]
    | sliceInt val =>
      rw [toAnyValue_sliceInt, AnyValue.populated, populatedList_iff]
      intro a ha
      obtain ⟨x, _, rfl⟩ := List.mem_map.1 ha
      simp [toAnyValue, AnyValue.populated]
    | mapStringAny val =>
      rw [toAnyValue_mapStringAny, AnyValue.populated, kvPopulatedList_iff]
      intro a ha
      obtain ⟨x, hx, rfl⟩ := List.mem_map.1 ha
      have := List.sizeOf_lt_of_mem hx
      have hs : sizeOf x = 1 + sizeOf x.1 + sizeOf x.2 := by
        rcases x with ⟨k, v⟩
        rfl
      simp at h
      exact ih x.2 (by omega)
    | _ => simp [toAnyValue, AnyValue.populated]

/-- Claim C1: `toAnyValue` is total on the finite trees of `GoValue`, and for
every input the value it returns has exactly one variant of its oneof
populated, at the root (so it is never the unset value) and in every nested
value. -/
theorem toAnyValue_total (v : GoValue) :
    (∃! t : Variant, (toAnyValue v).variant? = some t)
      ∧ toAnyValue v ≠ AnyValue.unset
      ∧ (toAnyValue v).populated = true := by
  have hp := toAnyValue_populated_aux (sizeOf v) v (le_refl _)
  have hne : toAnyValue v ≠ AnyValue.unset := by
    intro h
    rw [h] at hp
    simp [AnyValue.populated] at hp
  refine ⟨?_, hne, hp⟩
  cases hv : toAnyValue v with
  | unset => exact absurd hv hne
  | _ => simp [AnyValue.variant?]

/-! ## Leaves -/

theorem int64_of_inRange (x : Int) (h : -2 ^ 63 ≤ x ∧ x < 2 ^ 63) : int64 x = x := by
  unfold int64
  omega

theorem int64_of_uint64 (v : Nat) (h : v < 2 ^ 64) :
    int64 (v : Int) = if v < 2 ^ 63 then (v : Int) else (v : Int) - 2 ^ 64 := by
  unfold int64
  split <;> omega

/-- Claim C2: on a leaf, `toAnyValue` returns the variant of the same kind
holding the same value: a string gives `stringValue`, a bool `boolValue`, a
value of a signed integer type (within the range of its type) `intValue` of
the same integer, a `float64` `doubleValue` of itself, a `float32`
`doubleValue` of its `float64` conversion, a `[]byte` `bytesValue` of the same
bytes. -/
theorem toAnyValue_leaf (s : String) (b : Bool) (n n8 n16 n32 n64 : Int)
    (f : float64) (f32 : float32) (bs : List byte)
    (hn : -2 ^ 63 ≤ n ∧ n < 2 ^ 63) (h8 : -2 ^ 7 ≤ n8 ∧ n8 < 2 ^ 7)
    (h16 : -2 ^ 15 ≤ n16 ∧ n16 < 2 ^ 15) (h32 : -2 ^ 31 ≤ n32 ∧ n32 < 2 ^ 31) :
    toAnyValue (.string s) = .stringValue s
      ∧ toAnyValue (.bool b) = .boolValue b
      ∧ toAnyValue (.int n) = .intValue n
      ∧ toAnyValue (.int8 n8) = .intValue n8
      ∧ toAnyValue (.int16 n16) = .intValue n16
      ∧ toAnyValue (.int32 n32) = .intValue n32
      ∧ toAnyValue (.int64 n64) = .intValue n64
      ∧ toAnyValue (.float64 f) = .doubleValue f
      ∧ toAnyValue (.float32 f32) = .doubleValue (float64.ofFloat32 f32)
      ∧ toAnyValue (.bytes bs) = .bytesValue bs := by
  have e := int64_of_inRange n hn
  have e8 := int64_of_inRange n8 (by omega)
  have e16 := int64_of_inRange n16 (by omega)
  have e32 := int64_of_inRange n32 (by omega)
  simp [toAnyValue, e, e8, e16, e32]

/-- Witness of `toAnyValue_leaf` at the extreme values of the signed types. -/
theorem toAnyValue_leaf_witness :
    toAnyValue (.string "a") = .stringValue "a"
      ∧ toAnyValue (.bool true) = .boolValue true
      ∧ toAnyValue (.int (-9223372036854775808)) = .intValue (-9223372036854775808)
      ∧ toAnyValue (.int8 (-128)) = .intValue (-128)
      ∧ toAnyValue (.int16 32767) = .intValue 32767
      ∧ toAnyValue (.int32 (-1)) = .intValue (-1)
      ∧ toAnyValue (.int64 9223372036854775807) = .intValue 9223372036854775807
      ∧ toAnyValue (.float64 ⟨0x3FF0000000000000⟩) = .doubleValue ⟨0x3FF0000000000000⟩
      ∧ toAnyValue (.float32 ⟨0x3F800000⟩) = .doubleValue (float64.ofFloat32 ⟨0x3F800000⟩)
      ∧ toAnyValue (.bytes [0, 255]) = .bytesValue [0, 255] :=
  toAnyValue_leaf "a" true (-9223372036854775808) (-128) 32767 (-1) 9223372036854775807
    ⟨0x3FF0000000000000⟩ ⟨0x3F800000⟩ [0, 255]
    (by decide) (by decide) (by decide) (by decide)

/-- Claim C3: for every value whose dynamic type is none of the recognised
cases, the nil interface and values of custom types included, `toAnyValue`
returns the `stringValue` holding the text `fmt` prints for it under `%v`. -/
theorem toAnyValue_fallback (u : OtherValue) :
    toAnyValue (.other u) = .stringValue (fmtSprintfV u)
      ∧ (toAnyValue (.other u)).variant? = some Variant.String
      ∧ toAnyValue (.other .nil) = .stringValue "<nil>"
      ∧ toAnyValue (.other (.sliceInt64 [1, -2])) = .stringValue "[1 -2]"
      ∧ ∀ text, toAnyValue (.other (.custom text)) = .stringValue text := by
  refine ⟨by simp [toAnyValue], by simp [toAnyValue, AnyValue.variant?],
    by simp [toAnyValue, fmtSprintfV], ?_, by simp [toAnyValue, fmtSprintfV]⟩
  simp only [toAnyValue]
  congr 1

/-- Claim C7: a value `v` of an unsigned integer type is encoded as `intValue`
of `v` read as a 64-bit two's-complement integer: `v` itself below `2^63`,
`v - 2^64` from `2^63` on. -/
theorem toAnyValue_unsigned (v : Nat) (h : v < 2 ^ 64) :
    (∀ w ∈ [GoValue.uint v, GoValue.uint8 v, GoValue.uint16 v, GoValue.uint32 v,
        GoValue.uint64 v],
      toAnyValue w = .intValue (if v < 2 ^ 63 then (v : Int) else (v : Int) - 2 ^ 64)
        ∧ (toAnyValue w).variant? = some Variant.Int)
      ∧ (v < 2 ^ 63 → toAnyValue (.uint64 v) = .intValue v)
      ∧ (2 ^ 63 ≤ v → toAnyValue (.uint64 v) = .intValue ((v : Int) - 2 ^ 64)
          ∧ (v : Int) - 2 ^ 64 < 0) := by
  have e := int64_of_uint64 v h
  refine ⟨?_, ?_, ?_⟩
  · intro w hw
    simp only [List.mem_cons, List.mem_singleton, List.not_mem_nil, or_false] at hw
    rcases hw with rfl | rfl | rfl | rfl | rfl <;>
      simp [toAnyValue, e, AnyValue.variant?]
  · intro hv
    simp only [toAnyValue, e, if_pos hv]
  · intro hv
    have : ¬ v < 2 ^ 63 := by omega
    refine ⟨by simp only [toAnyValue, e, if_neg this], by omega⟩

/-- Witness of `toAnyValue_unsigned` at the largest `uint64`, encoded as `-1`,
and at the largest `uint8`, encoded as itself. -/
theorem toAnyValue_unsigned_witness :
    toAnyValue (.uint64 18446744073709551615) = .intValue (-1)
      ∧ toAnyValue (.uint8 255) = .intValue 255 :=
  ⟨by
    have h := (toAnyValue_unsigned 18446744073709551615 (by decide)).2.2 (by decide)
    simpa using h.1,
   by
    have h := (toAnyValue_unsigned 255 (by decide)).1 (GoValue.uint8 255) (by simp)
    simpa using h.1⟩

/-! ## Sequences -/

/-- Claim C4: a `[]any`, a `[]string` or a `[]int` of length `n` is encoded as
the `arrayValue` with exactly `n` elements whose element at each index `i < n`
is the encoding of the element of the input at `i`; the empty sequence gives
the array without elements. -/
theorem toAnyValue_array (xs : List GoValue) (ss : List String) (ns : List Int) :
    (∃ ys, toAnyValue (.sliceAny xs) = .arrayValue ys ∧ ys.length = xs.length
        ∧ ∀ i (h : i < xs.length), ys[i]? = some (toAnyValue xs[i]))
      ∧ (∃ ys, toAnyValue (.sliceString ss) = .arrayValue ys ∧ ys.length = ss.length
        ∧ ∀ i (h : i < ss.length), ys[i]? = some (toAnyValue (.string ss[i])))
      ∧ (∃ ys, toAnyValue (.sliceInt ns) = .arrayValue ys ∧ ys.length = ns.length
        ∧ ∀ i (h : i < ns.length), ys[i]? = some (toAnyValue (.int ns[i])))
      ∧ toAnyValue (.sliceAny []) = .arrayValue []
      ∧ toAnyValue (.sliceString []) = .arrayValue []
      ∧ toAnyValue (.sliceInt []) = .arrayValue [] := by
  refine ⟨⟨_, toAnyValue_sliceAny xs, by simp, ?_⟩, ⟨_, toAnyValue_sliceString ss, by simp, ?_⟩,
    ⟨_, toAnyValue_sliceInt ns, by simp, ?_⟩, ?_, ?_, ?_⟩
  · intro i h
    simp [List.getElem?_map, List.getElem?_eq_getElem h]
  · intro i h
    simp [List.getElem?_map, List.getElem?_eq_getElem h]
  · intro i h
    simp [List.getElem?_map, List.getElem?_eq_getElem h]
  · simp [toAnyValue_sliceAny]
  · simp [toAnyValue_sliceString]
  · simp [toAnyValue_sliceInt]

/-- Witness of `toAnyValue_array`: the last element of the encoding of the
heterogeneous sequence `["a", 3, true]` is `boolValue true`. -/
theorem toAnyValue_array_witness :
    ∃ ys, toAnyValue (.sliceAny [.string "a", .int 3, .bool true]) = .arrayValue ys
      ∧ ys.length = 3 ∧ ys[2]? = some (.boolValue true) := by
  obtain ⟨ys, h1, h2, h3⟩ :=
    (toAnyValue_array [.string "a", .int 3, .bool true] [] []).1
  refine ⟨ys, h1, h2, ?_⟩
  have h := h3 2 (by decide)
  simpa [toAnyValue] using h

/-! ## Maps -/

theorem entries_countP (m : List (String × GoValue)) (hm : (keys m).Nodup) (k : String)
    (hk : k ∈ keys m) :
    (m.map fun e => KeyValue.mk e.1 (toAnyValue e.2)).countP (fun kv => kv.Key == k) = 1 := by
  rw [List.countP_map]
  have h1 : List.countP ((fun kv : KeyValue => kv.Key == k) ∘
      fun e : String × GoValue => KeyValue.mk e.1 (toAnyValue e.2)) m
      = List.count k (keys m) := by
    unfold keys
    rw [List.count, List.countP_map]
    rfl
  rw [h1]
  exact List.count_eq_one_of_mem hm hk

theorem entries_key_mem (m : List (String × GoValue)) (kv : KeyValue)
    (h : kv ∈ m.map fun e => KeyValue.mk e.1 (toAnyValue e.2)) : kv.Key ∈ keys m := by
  obtain ⟨e, he, rfl⟩ := List.mem_map.1 h
  exact List.mem_map.2 ⟨e, he, rfl⟩

theorem entries_of_lookup (m : List (String × GoValue)) (k : String) (v : GoValue)
    (h : m.lookup k = some v) :
    KeyValue.mk k (toAnyValue v) ∈ m.map fun e => KeyValue.mk e.1 (toAnyValue e.2) := by
  induction m with
  | nil => simp at h
  | cons e es ih =>
    rcases e with ⟨k0, v0⟩
    by_cases hk : k = k0
    · subst hk
      simp [List.lookup] at h
      subst h
      simp
    · have hb : (k == k0) = false := by simpa using hk
      simp only [List.lookup, hb] at h
      simp only [List.map_cons, List.mem_cons]
      exact Or.inr (ih h)

theorem lookup_of_mem (m : List (String × GoValue)) (hm : (keys m).Nodup)
    (e : String × GoValue) (he : e ∈ m) : m.lookup e.1 = some e.2 := by
  induction m with
  | nil => simp at he
  | cons x xs ih =>
    rcases x with ⟨k0, v0⟩
    simp only [keys, List.map_cons, List.nodup_cons] at hm
    rcases List.mem_cons.1 he with rfl | h
    · simp [List.lookup]
    · have hne : e.1 ≠ k0 := by
        intro hk
        exact hm.1 (hk ▸ List.mem_map.2 ⟨e, h, rfl⟩)
      have hb : (e.1 == k0) = false := by simpa using hne
      simp only [List.lookup, hb]
      exact ih hm.2 h

/-- Claim C5: a `map[string]any` is encoded as the `kvlistValue` in which every
key of the map appears exactly once and no other key appears, so that it has
as many entries as the map has keys, and in which the entry of each key `k`
holds the encoding of `m[k]`.  The statement holds for every order in which
the map may be visited. -/
theorem toAnyValue_kvlist (m : List (String × GoValue)) (hm : (keys m).Nodup) :
    ∃ kvs, toAnyValue (.mapStringAny m) = .kvlistValue kvs
      ∧ kvs.length = (keys m).length
      ∧ (∀ k ∈ keys m, kvs.countP (fun kv => kv.Key == k) = 1)
      ∧ (∀ kv ∈ kvs, kv.Key ∈ keys m)
      ∧ (∀ k v, m.lookup k = some v → KeyValue.mk k (toAnyValue v) ∈ kvs)
      ∧ (∀ kv ∈ kvs, (m.lookup kv.Key).map toAnyValue = some kv.Value) := by
  refine ⟨_, toAnyValue_mapStringAny m, by simp [keys], entries_countP m hm,
    entries_key_mem m, entries_of_lookup m, ?_⟩
  intro kv hkv
  obtain ⟨e, he, rfl⟩ := List.mem_map.1 hkv
  simp [KeyValue.Key, KeyValue.Value, lookup_of_mem m hm e he]

/-- Witness of `toAnyValue_kvlist` at the map with the keys `a` and `b`, in
the two orders in which it can be visited. -/
theorem toAnyValue_kvlist_witness :
    (keys [("a", GoValue.int 1), ("b", GoValue.bool false)]).Nodup
      ∧ (∃ kvs, toAnyValue (.mapStringAny [("a", .int 1), ("b", .bool false)])
            = .kvlistValue kvs
          ∧ kvs.length = 2 ∧ KeyValue.mk "b" (.boolValue false) ∈ kvs)
      ∧ (∃ kvs, toAnyValue (.mapStringAny [("b", .bool false), ("a", .int 1)])
            = .kvlistValue kvs
          ∧ kvs.length = 2 ∧ KeyValue.mk "b" (.boolValue false) ∈ kvs) := by
  have hn1 : (keys [("a", GoValue.int 1), ("b", GoValue.bool false)]).Nodup := by
    simp [keys]
  have hn2 : (keys [("b", GoValue.bool false), ("a", GoValue.int 1)]).Nodup := by
    simp [keys]
  refine ⟨hn1, ?_, ?_⟩
  · obtain ⟨kvs, h1, h2, _, _, h5, _⟩ :=
      toAnyValue_kvlist [("a", .int 1), ("b", .bool false)] hn1
    refine ⟨kvs, h1, by simpa [keys] using h2, ?_⟩
    have h := h5 "b" (.bool false) (by simp [List.lookup])
    simpa [toAnyValue] using h
  · obtain ⟨kvs, h1, h2, _, _, h5, _⟩ :=
      toAnyValue_kvlist [("b", .bool false), ("a", .int 1)] hn2
    refine ⟨kvs, h1, by simpa [keys] using h2, ?_⟩
    have h := h5 "b" (.bool false) (by simp [List.lookup])
    simpa [toAnyValue] using h

/-! ## Slices outside the recognised types -/

/-- Claim C6, refuted as stated: the `[]bool` holding `true, false` is an
ordered sequence other than a `[]byte`, and `toAnyValue` encodes it as the
`stringValue` of its text, not as the array of its encoded elements. -/
theorem toAnyValue_sliceBool_not_array :
    (GoValue.other (.sliceBool [true, false])).sliceElems? = some [.bool true, .bool false]
      ∧ toAnyValue (.other (.sliceBool [true, false])) = .stringValue "[true false]"
      ∧ toAnyValue (.other (.sliceBool [true, false]))
          ≠ .arrayValue ([GoValue.bool true, GoValue.bool false].map toAnyValue) := by
  refine ⟨rfl, ?_, ?_⟩
  · simp only [toAnyValue]
    congr 1
  · simp [toAnyValue]

/-- Claim C6, amended: a slice other than a `[]byte` is encoded as the
`arrayValue` of its encoded elements, in order, exactly when its type is
`[]any`, `[]string` or `[]int`; a slice of any other type is encoded as the
`stringValue` of the text `fmt` prints for it under `%v`. -/
theorem toAnyValue_array_iff (v : GoValue) (xs : List GoValue)
    (h : v.sliceElems? = some xs) :
    (toAnyValue v = .arrayValue (xs.map toAnyValue)
        ↔ (∃ val, v = .sliceAny val) ∨ (∃ val, v = .sliceString val)
          ∨ (∃ val, v = .sliceInt val))
      ∧ (∀ u, v = .other u → toAnyValue v = .stringValue (fmtSprintfV u)) := by
  constructor
  · cases v with
    | sliceAny val =>
      simp only [GoValue.sliceElems?, Option.some.injEq] at h
      subst h
      simp [toAnyValue_sliceAny]
    | sliceString val =>
      simp only [GoValue.sliceElems?, Option.some.injEq] at h
      subst h
      simp [toAnyValue_sliceString, List.map_map, Function.comp_def]
    | sliceInt val =>
      simp only [GoValue.sliceElems?, Option.some.injEq] at h
      subst h
      simp [toAnyValue_sliceInt, List.map_map, Function.comp_def]
    | other u => simp [toAnyValue]
    | _ => simp [GoValue.sliceElems?] at h
  · rintro u rfl
    simp [toAnyValue]

/-- Witness of `toAnyValue_array_iff`: a `[]string` is encoded as an array, a
`[]int64` as text. -/
theorem toAnyValue_array_iff_witness :
    toAnyValue (.sliceString ["a", "b"])
        = .arrayValue ([GoValue.string "a", GoValue.string "b"].map toAnyValue)
      ∧ toAnyValue (.other (.sliceInt64 [1, 2]))
          = .stringValue (fmtSprintfV (.sliceInt64 [1, 2])) :=
  ⟨(toAnyValue_array_iff (.sliceString ["a", "b"]) [.string "a", .string "b"] rfl).1.2
      (Or.inr (Or.inl ⟨_, rfl⟩)),
   (toAnyValue_array_iff (.other (.sliceInt64 [1, 2])) [.int64 1, .int64 2] rfl).2 _ rfl⟩

/-! ## The log record assembled by `emit` -/

theorem emit_Attributes (g : Globals) (env : Env) (ctx : Context) (severityNumber : Int)
    (severityText body : String) (attrs : MapStringAny) :
    (emit g env ctx severityNumber severityText body attrs).logRecord.Attributes
      = attrs.range.map fun e => KeyValue.mk e.1 (toAnyValue e.2) := by
  unfold emit
  simp only [foldl_append_singleton (fun e : String × GoValue => KeyValue.mk e.1 (toAnyValue e.2)),
    List.nil_append]
  split <;> rfl

theorem emit_Body (g : Globals) (env : Env) (ctx : Context) (severityNumber : Int)
    (severityText body : String) (attrs : MapStringAny) :
    (emit g env ctx severityNumber severityText body attrs).logRecord.Body
      = .stringValue body := by
  unfold emit
  simp only
  split <;> rfl

theorem emit_Severity (g : Globals) (env : Env) (ctx : Context) (severityNumber : Int)
    (severityText body : String) (attrs : MapStringAny) :
    (emit g env ctx severityNumber severityText body attrs).logRecord.SeverityNumber
        = severityNumber
      ∧ (emit g env ctx severityNumber severityText body attrs).logRecord.SeverityText
        = severityText := by
  unfold emit
  simp only
  split <;> exact ⟨rfl, rfl⟩

theorem uint32_byte (b : byte) : uint32 (b.val : Int) = b.val := by
  unfold uint32
  have := b.isLt
  omega

/-- Claim C8: the record assembled by `emit` has the `stringValue` of the
message text as its body, and its attributes hold exactly one entry for each
key of the attribute mapping and nothing else, the entry of `k` holding the
encoding of `m[k]`.  In particular `Info` with the body `hello` and the
attributes `count: 3`, `ok: true`, visited in either order, gives the body
`hello`, the severity text `INFO`, and the attributes `count -> intValue 3`
and `ok -> boolValue true`. -/
theorem emit_body_attributes (g : Globals) (env : Env) (ctx : Context) (severityNumber : Int)
    (severityText body : String) (attrs : MapStringAny) (hm : (keys attrs.range).Nodup) :
    (emit g env ctx severityNumber severityText body attrs).logRecord.Body = .stringValue body
      ∧ (emit g env ctx severityNumber severityText body attrs).logRecord.Attributes.length
          = (keys attrs.range).length
      ∧ (∀ k ∈ keys attrs.range,
          (emit g env ctx severityNumber severityText body attrs).logRecord.Attributes.countP
            (fun kv => kv.Key == k) = 1)
      ∧ (∀ kv ∈ (emit g env ctx severityNumber severityText body attrs).logRecord.Attributes,
          kv.Key ∈ keys attrs.range
            ∧ (attrs.range.lookup kv.Key).map toAnyValue = some kv.Value)
      ∧ (∀ k v, attrs.range.lookup k = some v → KeyValue.mk k (toAnyValue v)
          ∈ (emit g env ctx severityNumber severityText body attrs).logRecord.Attributes)
      ∧ (∀ m : List (String × GoValue), m.Perm [("count", .int 3), ("ok", .bool true)] →
          (Info g env ctx "hello" [some m]).logRecord.Body = .stringValue "hello"
            ∧ (Info g env ctx "hello" [some m]).logRecord.SeverityText = "INFO"
            ∧ (Info g env ctx "hello" [some m]).logRecord.Attributes.length = 2
            ∧ KeyValue.mk "count" (.intValue 3)
                ∈ (Info g env ctx "hello" [some m]).logRecord.Attributes
            ∧ KeyValue.mk "ok" (.boolValue true)
                ∈ (Info g env ctx "hello" [some m]).logRecord.Attributes) := by
  rw [emit_Body, emit_Attributes]
  refine ⟨rfl, by simp [keys], entries_countP _ hm, ?_, entries_of_lookup _, ?_⟩
  · intro kv hkv
    refine ⟨entries_key_mem _ kv hkv, ?_⟩
    obtain ⟨e, he, rfl⟩ := List.mem_map.1 hkv
    simp [KeyValue.Key, KeyValue.Value, lookup_of_mem _ hm e he]
  · intro m hperm
    have hA : (Info g env ctx "hello" [some m]).logRecord.Attributes
        = m.map fun e => KeyValue.mk e.1 (toAnyValue e.2) := by
      simp only [Info, List.length_singleton, Nat.lt_one_iff, dite_true,
        List.getElem_cons_zero, emit_Attributes]
      rfl
    have hB : (Info g env ctx "hello" [some m]).logRecord.Body = .stringValue "hello" := by
      simp only [Info, emit_Body]
    have hS : (Info g env ctx "hello" [some m]).logRecord.SeverityText = "INFO" := by
      simp only [Info, (emit_Severity _ _ _ _ _ _ _).2]
    rw [hA]
    refine ⟨hB, hS, ?_, ?_, ?_⟩
    · simpa using hperm.length_eq
    · have h1 : (("count", GoValue.int 3) : String × GoValue) ∈ m :=
        hperm.mem_iff.2 (by simp)
      have h2 := List.mem_map_of_mem (fun e : String × GoValue =>
        KeyValue.mk e.1 (toAnyValue e.2)) h1
      simpa [toAnyValue, int64] using h2
    · have h1 : (("ok", GoValue.bool true) : String × GoValue) ∈ m :=
        hperm.mem_iff.2 (by simp)
      have h2 := List.mem_map_of_mem (fun e : String × GoValue =>
        KeyValue.mk e.1 (toAnyValue e.2)) h1
      simpa [toAnyValue] using h2

/-- Witness of `emit_body_attributes` at the attributes `count: 3`, `ok: true`. -/
theorem emit_body_attributes_witness :
    (keys (MapStringAny.range (some [("count", .int 3), ("ok", .bool true)]))).Nodup
      ∧ (emit ⟨"svc", "1.0"⟩ ⟨"0.1.0", 1700000000000000000, fun _ => .ok []⟩ ⟨none⟩
            SeverityNumber_SEVERITY_NUMBER_INFO "INFO" "hello"
            (some [("count", .int 3), ("ok", .bool true)])).logRecord.Body
          = .stringValue "hello"
      ∧ (emit ⟨"svc", "1.0"⟩ ⟨"0.1.0", 1700000000000000000, fun _ => .ok []⟩ ⟨none⟩
            SeverityNumber_SEVERITY_NUMBER_INFO "INFO" "hello"
            (some [("count", .int 3), ("ok", .bool true)])).logRecord.Attributes.length = 2 := by
  have hn : (keys (MapStringAny.range
      (some [("count", .int 3), ("ok", .bool true)]))).Nodup := by
    simp [keys, MapStringAny.range]
  have h := emit_body_attributes ⟨"svc", "1.0"⟩
    ⟨"0.1.0", 1700000000000000000, fun _ => .ok []⟩ ⟨none⟩
    SeverityNumber_SEVERITY_NUMBER_INFO "INFO" "hello"
    (some [("count", .int 3), ("ok", .bool true)]) hn
  exact ⟨hn, h.1, by simpa [keys, MapStringAny.range] using h.2.1⟩

/-! ## Trace correlation -/

/-- Claim C9: when the span context of the ambient context is valid, the record
holds its 16-byte trace id, its 8-byte span id and its trace flags; when it is
not valid, the trace id and the span id stay empty and the flags stay at the
zero value.  The trace id and the span id of the record are non-empty exactly
when the span context is valid. -/
theorem emit_trace_correlation (g : Globals) (env : Env) (ctx : Context) (severityNumber : Int)
    (severityText body : String) (attrs : MapStringAny) :
    ((SpanContextFromContext ctx).IsValid = true →
        (emit g env ctx severityNumber severityText body attrs).logRecord.TraceId
            = (SpanContextFromContext ctx).TraceID
          ∧ (emit g env ctx severityNumber severityText body attrs).logRecord.TraceId.length = 16
          ∧ (emit g env ctx severityNumber severityText body attrs).logRecord.SpanId
            = (SpanContextFromContext ctx).SpanID
          ∧ (emit g env ctx severityNumber severityText body attrs).logRecord.SpanId.length = 8
          ∧ (emit g env ctx severityNumber severityText body attrs).logRecord.Flags
            = (SpanContextFromContext ctx).TraceFlags.val)
      ∧ ((SpanContextFromContext ctx).IsValid = false →
        (emit g env ctx severityNumber severityText body attrs).logRecord.TraceId = []
          ∧ (emit g env ctx severityNumber severityText body attrs).logRecord.SpanId = []
          ∧ (emit g env ctx severityNumber severityText body attrs).logRecord.Flags = 0)
      ∧ ((emit g env ctx severityNumber severityText body attrs).logRecord.TraceId ≠ []
          ↔ (SpanContextFromContext ctx).IsValid = true)
      ∧ ((emit g env ctx severityNumber severityText body attrs).logRecord.SpanId ≠ []
          ↔ (SpanContextFromContext ctx).IsValid = true) := by
  have ht := (SpanContextFromContext ctx).traceID_len
  have hs := (SpanContextFromContext ctx).spanID_len
  have ht0 : (SpanContextFromContext ctx).traceID ≠ [] := by
    intro h
    rw [h] at ht
    simp at ht
  have hs0 : (SpanContextFromContext ctx).spanID ≠ [] := by
    intro h
    rw [h] at hs
    simp at hs
  unfold emit
  simp only
  cases hv : (SpanContextFromContext ctx).IsValid with
  | true =>
    simp only [if_true, SpanContext.TraceID, SpanContext.SpanID, SpanContext.TraceFlags,
      uint32_byte]
    simp [ht, hs, ht0, hs0]
  | false => simp

/-- Witness of `emit_trace_correlation`: a context carrying a valid span
context, and a context carrying no span. -/
theorem emit_trace_correlation_witness :
    ((emit ⟨"svc", "1.0"⟩ ⟨"0.1.0", 0, fun _ => .ok []⟩
          ⟨some ⟨[1, 2, 3, 4, 5, 6, 7, 8, 9, 10, 11, 12, 13, 14, 15, 16],
            [0, 0, 0, 0, 0, 0, 0, 9], 1, rfl, rfl⟩⟩
          SeverityNumber_SEVERITY_NUMBER_WARN "WARN" "w" none).logRecord.TraceId
        = [1, 2, 3, 4, 5, 6, 7, 8, 9, 10, 11, 12, 13, 14, 15, 16]
      ∧ (emit ⟨"svc", "1.0"⟩ ⟨"0.1.0", 0, fun _ => .ok []⟩
          ⟨some ⟨[1, 2, 3, 4, 5, 6, 7, 8, 9, 10, 11, 12, 13, 14, 15, 16],
            [0, 0, 0, 0, 0, 0, 0, 9], 1, rfl, rfl⟩⟩
          SeverityNumber_SEVERITY_NUMBER_WARN "WARN" "w" none).logRecord.Flags = 1)
      ∧ ((emit ⟨"svc", "1.0"⟩ ⟨"0.1.0", 0, fun _ => .ok []⟩ ⟨none⟩
          SeverityNumber_SEVERITY_NUMBER_WARN "WARN" "w" none).logRecord.TraceId = []
        ∧ (emit ⟨"svc", "1.0"⟩ ⟨"0.1.0", 0, fun _ => .ok []⟩ ⟨none⟩
          SeverityNumber_SEVERITY_NUMBER_WARN "WARN" "w" none).logRecord.Flags = 0) := by
  constructor
  · have h := (emit_trace_correlation ⟨"svc", "1.0"⟩ ⟨"0.1.0", 0, fun _ => .ok []⟩
      ⟨some ⟨[1, 2, 3, 4, 5, 6, 7, 8, 9, 10, 11, 12, 13, 14, 15, 16],
        [0, 0, 0, 0, 0, 0, 0, 9], 1, rfl, rfl⟩⟩
      SeverityNumber_SEVERITY_NUMBER_WARN "WARN" "w" none).1 (by decide)
    exact ⟨h.1, h.2.2.2.2⟩
  · have h := (emit_trace_correlation ⟨"svc", "1.0"⟩ ⟨"0.1.0", 0, fun _ => .ok []⟩ ⟨none⟩
      SeverityNumber_SEVERITY_NUMBER_WARN "WARN" "w" none).2.1 (by decide)
    exact ⟨h.1, h.2.2⟩

/-! ## Severity -/

/-- Claim C10: each leveled entry point emits a record with its own severity
number and text, `Debug` 5 and `DEBUG`, `Info` 9 and `INFO`, `Warn` 13 and
`WARN`, `Error` 17 and `ERROR`, for every body and attribute mapping; the
numbers increase strictly in this order. -/
theorem leveled_severity (g : Globals) (env : Env) (ctx : Context) (body : String)
    (attrs : List MapStringAny) :
    ((Debug g env ctx body attrs).logRecord.SeverityNumber = 5
        ∧ (Debug g env ctx body attrs).logRecord.SeverityText = "DEBUG")
      ∧ ((Info g env ctx body attrs).logRecord.SeverityNumber = 9
        ∧ (Info g env ctx body attrs).logRecord.SeverityText = "INFO")
      ∧ ((Warn g env ctx body attrs).logRecord.SeverityNumber = 13
        ∧ (Warn g env ctx body attrs).logRecord.SeverityText = "WARN")
      ∧ ((Error g env ctx body attrs).logRecord.SeverityNumber = 17
        ∧ (Error g env ctx body attrs).logRecord.SeverityText = "ERROR")
      ∧ (Debug g env ctx body attrs).logRecord.SeverityNumber
          < (Info g env ctx body attrs).logRecord.SeverityNumber
      ∧ (Info g env ctx body attrs).logRecord.SeverityNumber
          < (Warn g env ctx body attrs).logRecord.SeverityNumber
      ∧ (Warn g env ctx body attrs).logRecord.SeverityNumber
          < (Error g env ctx body attrs).logRecord.SeverityNumber := by
  have hD : (Debug g env ctx body attrs).logRecord.SeverityNumber = 5
      ∧ (Debug g env ctx body attrs).logRecord.SeverityText = "DEBUG" :=
    emit_Severity g env ctx SeverityNumber_SEVERITY_NUMBER_DEBUG "DEBUG" body _
  have hI : (Info g env ctx body attrs).logRecord.SeverityNumber = 9
      ∧ (Info g env ctx body attrs).logRecord.SeverityText = "INFO" :=
    emit_Severity g env ctx SeverityNumber_SEVERITY_NUMBER_INFO "INFO" body _
  have hW : (Warn g env ctx body attrs).logRecord.SeverityNumber = 13
      ∧ (Warn g env ctx body attrs).logRecord.SeverityText = "WARN" :=
    emit_Severity g env ctx SeverityNumber_SEVERITY_NUMBER_WARN "WARN" body _
  have hE : (Error g env ctx body attrs).logRecord.SeverityNumber = 17
      ∧ (Error g env ctx body attrs).logRecord.SeverityText = "ERROR" :=
    emit_Severity g env ctx SeverityNumber_SEVERITY_NUMBER_ERROR "ERROR" body _
  refine ⟨hD, hI, hW, hE, ?_, ?_, ?_⟩
  · rw [hD.1, hI.1]
    decide
  · rw [hI.1, hW.1]
    decide
  · rw [hW.1, hE.1]
    decide

/-! ## The envelope -/

theorem emit_data (g : Globals) (env : Env) (ctx : Context) (severityNumber : Int)
    (severityText body : String) (attrs : MapStringAny) :
    (emit g env ctx severityNumber severityText body attrs).data
      = { ResourceLogs := [
            { Resource :=
                { Attributes := [
                    .mk "service.name" (.stringValue g.serviceName),
                    .mk "service.version" (.stringValue g.serviceVersion),
                    .mk "telemetry.sdk.name" (.stringValue "pink-otel"),
                    .mk "telemetry.sdk.language" (.stringValue "go"),
                    .mk "telemetry.sdk.version" (.stringValue env.Version)] }
              ScopeLogs := [
                { Scope := { Name := "github.com/pink-tools/pink-otel", Version := env.Version }
                  LogRecords :=
                    [(emit g env ctx severityNumber severityText body attrs).logRecord] }] }] } := by
  rfl

/-- Claim C11: after `Init n v`, every emission builds an envelope with exactly
one resource block, whose attributes are the five `stringValue` entries
`service.name = n`, `service.version = v`, `telemetry.sdk.name = pink-otel`,
`telemetry.sdk.language = go`, `telemetry.sdk.version = Version`, in this
order, and which holds exactly one scope block, named
`github.com/pink-tools/pink-otel` with version `Version`, holding exactly the
one log record.  In particular `Init "svc" "1.0"` gives `service.name = svc`
and `service.version = 1.0`. -/
theorem emit_envelope_after_Init (n v : String) (g0 : Globals) (env : Env) (ctx : Context)
    (severityNumber : Int) (severityText body : String) (attrs : MapStringAny)
    (entry : List MapStringAny) :
    (emit (Init n v g0) env ctx severityNumber severityText body attrs).data
        = { ResourceLogs := [
              { Resource :=
                  { Attributes := [
                      .mk "service.name" (.stringValue n),
                      .mk "service.version" (.stringValue v),
                      .mk "telemetry.sdk.name" (.stringValue "pink-otel"),
                      .mk "telemetry.sdk.language" (.stringValue "go"),
                      .mk "telemetry.sdk.version" (.stringValue env.Version)] }
                ScopeLogs := [
                  { Scope :=
                      { Name := "github.com/pink-tools/pink-otel", Version := env.Version }
                    LogRecords :=
                      [(emit (Init n v g0) env ctx severityNumber severityText body
                        attrs).logRecord] }] }] }
      ∧ (∀ e ∈ [Debug (Init n v g0) env ctx body entry, Info (Init n v g0) env ctx body entry,
            Warn (Init n v g0) env ctx body entry, Error (Init n v g0) env ctx body entry],
          e.data.ResourceLogs.length = 1
            ∧ ∀ rl ∈ e.data.ResourceLogs,
              rl.Resource.Attributes = [
                  .mk "service.name" (.stringValue n),
                  .mk "service.version" (.stringValue v),
                  .mk "telemetry.sdk.name" (.stringValue "pink-otel"),
                  .mk "telemetry.sdk.language" (.stringValue "go"),
                  .mk "telemetry.sdk.version" (.stringValue env.Version)]
                ∧ rl.ScopeLogs.length = 1
                ∧ ∀ sl ∈ rl.ScopeLogs,
                  sl.Scope.Name = "github.com/pink-tools/pink-otel"
                    ∧ sl.Scope.Version = env.Version
                    ∧ sl.LogRecords = [e.logRecord])
      ∧ (∀ rl ∈ (emit (Init "svc" "1.0" g0) env ctx severityNumber severityText body
            attrs).data.ResourceLogs,
          rl.Resource.Attributes[0]? = some (.mk "service.name" (.stringValue "svc"))
            ∧ rl.Resource.Attributes[1]? = some (.mk "service.version" (.stringValue "1.0"))) := by
  refine ⟨emit_data _ _ _ _ _ _ _, ?_, ?_⟩
  · intro e he
    simp only [List.mem_cons, List.mem_singleton, List.not_mem_nil, or_false] at he
    rcases he with rfl | rfl | rfl | rfl <;>
      simp [Debug, Info, Warn, Error, emit_data, Init]
  · intro rl hrl
    rw [emit_data] at hrl
    simp only [List.mem_singleton] at hrl
    subst hrl
    simp [Init]

/-! ## Optional attributes -/

/-- Claim C12: each leveled entry point called without an attributes argument
does exactly what it does when called with an empty mapping, and with a nil
mapping: the same record, the same envelope, the same writes; the attributes
of the record are empty. -/
theorem leveled_no_attributes (g : Globals) (env : Env) (ctx : Context) (body : String) :
    (Debug g env ctx body [] = Debug g env ctx body [some []]
        ∧ Debug g env ctx body [] = Debug g env ctx body [none]
        ∧ (Debug g env ctx body []).logRecord.Attributes = [])
      ∧ (Info g env ctx body [] = Info g env ctx body [some []]
        ∧ Info g env ctx body [] = Info g env ctx body [none]
        ∧ (Info g env ctx body []).logRecord.Attributes = [])
      ∧ (Warn g env ctx body [] = Warn g env ctx body [some []]
        ∧ Warn g env ctx body [] = Warn g env ctx body [none]
        ∧ (Warn g env ctx body []).logRecord.Attributes = [])
      ∧ (Error g env ctx body [] = Error g env ctx body [some []]
        ∧ Error g env ctx body [] = Error g env ctx body [none]
        ∧ (Error g env ctx body []).logRecord.Attributes = []) := by
  refine ⟨⟨rfl, rfl, ?_⟩, ⟨rfl, rfl, ?_⟩, ⟨rfl, rfl, ?_⟩, ⟨rfl, rfl, ?_⟩⟩ <;>
    simp [Debug, Info, Warn, Error, emit_Attributes, MapStringAny.range]

/-! ## Timestamps -/

/-- Claim C13: in every record assembled by `emit` the timestamp and the
observed timestamp are equal, both being the one reading of the clock
converted to `uint64`, whatever the severity, body, attributes and context. -/
theorem emit_timestamps (g : Globals) (env : Env) (ctx : Context) (severityNumber : Int)
    (severityText body : String) (attrs : MapStringAny) :
    (emit g env ctx severityNumber severityText body attrs).logRecord.TimeUnixNano
        = (emit g env ctx severityNumber severityText body attrs).logRecord.ObservedTimeUnixNano
      ∧ (emit g env ctx severityNumber severityText body attrs).logRecord.TimeUnixNano
        = uint64 env.UnixNano
      ∧ (emit g env ctx severityNumber severityText body attrs).logRecord.ObservedTimeUnixNano
        = uint64 env.UnixNano := by
  unfold emit
  simp only
  split <;> exact ⟨rfl, rfl, rfl⟩

/-! ## Writes to the output sink -/

theorem emit_writes (g : Globals) (env : Env) (ctx : Context) (severityNumber : Int)
    (severityText body : String) (attrs : MapStringAny) :
    (emit g env ctx severityNumber severityText body attrs).writes
      = [(match env.Marshal (emit g env ctx severityNumber severityText body attrs).data with
          | .ok bs => bs
          | .error _ => []), [10]] := by
  rfl

theorem emit_writes_ok (g : Globals) (env : Env) (ctx : Context) (severityNumber : Int)
    (severityText body : String) (attrs : MapStringAny) (json : List byte)
    (h : env.Marshal (emit g env ctx severityNumber severityText body attrs).data = .ok json) :
    (emit g env ctx severityNumber severityText body attrs).writes = [json, [10]] := by
  rw [emit_writes, h]

theorem emit_writes_error (g : Globals) (env : Env) (ctx : Context) (severityNumber : Int)
    (severityText body : String) (attrs : MapStringAny) (err : String)
    (h : env.Marshal (emit g env ctx severityNumber severityText body attrs).data = .error err) :
    (emit g env ctx severityNumber severityText body attrs).writes = [[], [10]] := by
  rw [emit_writes, h]

/-- Claim C14, refuted as stated: with a serializer that fails, `emit` still
issues its second write, so the sink receives one byte, the newline, and not
zero bytes. -/
theorem emit_failure_writes_newline :
    (⟨"0.1.0", 0, fun _ => .error "invalid UTF-8"⟩ : Env).Marshal
        (emit ⟨"svc", "1.0"⟩ ⟨"0.1.0", 0, fun _ => .error "invalid UTF-8"⟩ ⟨none⟩
          SeverityNumber_SEVERITY_NUMBER_INFO "INFO" "hello" none).data
        = .error "invalid UTF-8"
      ∧ sinkOutput (emit ⟨"svc", "1.0"⟩ ⟨"0.1.0", 0, fun _ => .error "invalid UTF-8"⟩ ⟨none⟩
          SeverityNumber_SEVERITY_NUMBER_INFO "INFO" "hello" none).writes = [10]
      ∧ (sinkOutput (emit ⟨"svc", "1.0"⟩ ⟨"0.1.0", 0, fun _ => .error "invalid UTF-8"⟩ ⟨none⟩
          SeverityNumber_SEVERITY_NUMBER_INFO "INFO" "hello" none).writes).length ≠ 0 := by
  refine ⟨rfl, ?_, ?_⟩ <;> simp [emit, sinkOutput]

/-- Claim C14, amended: when serialization of the envelope fails, `emit` writes
no JSON text and no partial line: its first write has zero bytes, its second
write is the newline, so the sink receives exactly one byte, an empty line;
`emit` returns normally, the error is not surfaced. -/
theorem emit_failure_writes (g : Globals) (env : Env) (ctx : Context) (severityNumber : Int)
    (severityText body : String) (attrs : MapStringAny) (err : String)
    (h : env.Marshal (emit g env ctx severityNumber severityText body attrs).data = .error err) :
    (emit g env ctx severityNumber severityText body attrs).writes = [[], [10]]
      ∧ sinkOutput (emit g env ctx severityNumber severityText body attrs).writes = [10] := by
  rw [emit_writes_error g env ctx severityNumber severityText body attrs err h]
  exact ⟨rfl, rfl⟩

/-- Witness of `emit_failure_writes` with a serializer that always fails. -/
theorem emit_failure_writes_witness :
    (emit ⟨"svc", "1.0"⟩ ⟨"0.1.0", 0, fun _ => .error "invalid UTF-8"⟩ ⟨none⟩
        SeverityNumber_SEVERITY_NUMBER_ERROR "ERROR" "e" none).writes = [[], [10]]
      ∧ sinkOutput (emit ⟨"svc", "1.0"⟩ ⟨"0.1.0", 0, fun _ => .error "invalid UTF-8"⟩ ⟨none⟩
        SeverityNumber_SEVERITY_NUMBER_ERROR "ERROR" "e" none).writes = [10] :=
  emit_failure_writes ⟨"svc", "1.0"⟩ ⟨"0.1.0", 0, fun _ => .error "invalid UTF-8"⟩ ⟨none⟩
    SeverityNumber_SEVERITY_NUMBER_ERROR "ERROR" "e" none "invalid UTF-8" rfl

/-- Claim C15, refuted as stated: with a serializer that returns the text
`{}`, `emit` issues two write calls, the text and then the newline, not one
write call holding both. -/
theorem emit_success_two_writes :
    (emit ⟨"svc", "1.0"⟩ ⟨"0.1.0", 0, fun _ => .ok [123, 125]⟩ ⟨none⟩
        SeverityNumber_SEVERITY_NUMBER_INFO "INFO" "hello" none).writes = [[123, 125], [10]]
      ∧ (emit ⟨"svc", "1.0"⟩ ⟨"0.1.0", 0, fun _ => .ok [123, 125]⟩ ⟨none⟩
        SeverityNumber_SEVERITY_NUMBER_INFO "INFO" "hello" none).writes.length ≠ 1
      ∧ (emit ⟨"svc", "1.0"⟩ ⟨"0.1.0", 0, fun _ => .ok [123, 125]⟩ ⟨none⟩
        SeverityNumber_SEVERITY_NUMBER_INFO "INFO" "hello" none).writes
          ≠ [[123, 125] ++ [10]] := by
  refine ⟨?_, ?_, ?_⟩ <;> simp [emit]

/-- Claim C15, amended: for every emission whose serialization succeeds, `emit`
performs exactly two write calls on the sink, the first holding the JSON text
of the envelope and the second exactly one newline byte, so that the sink
receives the JSON text immediately followed by one newline. -/
theorem emit_success_writes (g : Globals) (env : Env) (ctx : Context) (severityNumber : Int)
    (severityText body : String) (attrs : MapStringAny) (json : List byte)
    (h : env.Marshal (emit g env ctx severityNumber severityText body attrs).data = .ok json) :
    (emit g env ctx severityNumber severityText body attrs).writes = [json, [10]]
      ∧ (emit g env ctx severityNumber severityText body attrs).writes.length = 2
      ∧ sinkOutput (emit g env ctx severityNumber severityText body attrs).writes
        = json ++ [10] := by
  rw [emit_writes_ok g env ctx severityNumber severityText body attrs json h]
  exact ⟨rfl, rfl, by simp [sinkOutput]⟩

/-- Witness of `emit_success_writes` with a serializer that returns `{}`. -/
theorem emit_success_writes_witness :
    (emit ⟨"svc", "1.0"⟩ ⟨"0.1.0", 0, fun _ => .ok [123, 125]⟩ ⟨none⟩
        SeverityNumber_SEVERITY_NUMBER_DEBUG "DEBUG" "d" none).writes = [[123, 125], [10]]
      ∧ (emit ⟨"svc", "1.0"⟩ ⟨"0.1.0", 0, fun _ => .ok [123, 125]⟩ ⟨none⟩
        SeverityNumber_SEVERITY_NUMBER_DEBUG "DEBUG" "d" none).writes.length = 2
      ∧ sinkOutput (emit ⟨"svc", "1.0"⟩ ⟨"0.1.0", 0, fun _ => .ok [123, 125]⟩ ⟨none⟩
        SeverityNumber_SEVERITY_NUMBER_DEBUG "DEBUG" "d" none).writes = [123, 125] ++ [10] :=
  emit_success_writes ⟨"svc", "1.0"⟩ ⟨"0.1.0", 0, fun _ => .ok [123, 125]⟩ ⟨none⟩
    SeverityNumber_SEVERITY_NUMBER_DEBUG "DEBUG" "d" none [123, 125] rfl

/-! ## Concurrent emissions -/

/-- Claim C16, refuted as stated: two emissions whose JSON text is `{}` issue
the writes `{}`, newline each; the sink can receive both texts before either
newline, and then holds one line with the bytes of both calls followed by an
empty line, not one complete line per call. -/
theorem concurrent_writes_share_a_line :
    [[123, 125], [123, 125], [10], [10]]
        ∈ interleavings
          (emit ⟨"svc", "1.0"⟩ ⟨"0.1.0", 1, fun _ => .ok [123, 125]⟩ ⟨none⟩
            SeverityNumber_SEVERITY_NUMBER_INFO "INFO" "a" none).writes
          (emit ⟨"svc", "1.0"⟩ ⟨"0.1.0", 2, fun _ => .ok [123, 125]⟩ ⟨none⟩
            SeverityNumber_SEVERITY_NUMBER_WARN "WARN" "b" none).writes
      ∧ sinkOutput [[123, 125], [123, 125], [10], [10]] = [123, 125, 123, 125, 10, 10]
      ∧ ¬ oneLinePerCall [123, 125] [123, 125]
          (sinkOutput [[123, 125], [123, 125], [10], [10]]) := by
  refine ⟨?_, ?_, ?_⟩
  · simp [emit_writes, interleavings]
  · simp [sinkOutput]
  · simp [oneLinePerCall, sinkOutput]

/-- Claim C16, amended: for two concurrent emissions whose serialization
succeeds, every interleaving of their write calls leaves in the sink the two
JSON texts and two newlines, each text before the newline of its own call.
When the calls are not interleaved, both writes of one call coming before both
writes of the other, the sink holds exactly one complete line per call; when
both texts are written before either newline, the sink holds the two texts on
one line followed by an empty line. -/
theorem concurrent_writes (g : Globals) (env1 env2 : Env) (ctx1 ctx2 : Context)
    (sev1 sev2 : Int) (text1 text2 body1 body2 : String) (attrs1 attrs2 : MapStringAny)
    (j1 j2 : List byte)
    (h1 : env1.Marshal (emit g env1 ctx1 sev1 text1 body1 attrs1).data = .ok j1)
    (h2 : env2.Marshal (emit g env2 ctx2 sev2 text2 body2 attrs2).data = .ok j2) :
    (∀ s ∈ interleavings (emit g env1 ctx1 sev1 text1 body1 attrs1).writes
          (emit g env2 ctx2 sev2 text2 body2 attrs2).writes,
        sinkOutput s = j1 ++ [10] ++ (j2 ++ [10]) ∨ sinkOutput s = j2 ++ [10] ++ (j1 ++ [10])
          ∨ sinkOutput s = j1 ++ j2 ++ [10, 10] ∨ sinkOutput s = j2 ++ j1 ++ [10, 10])
      ∧ ((emit g env1 ctx1 sev1 text1 body1 attrs1).writes
            ++ (emit g env2 ctx2 sev2 text2 body2 attrs2).writes
          ∈ interleavings (emit g env1 ctx1 sev1 text1 body1 attrs1).writes
            (emit g env2 ctx2 sev2 text2 body2 attrs2).writes
        ∧ oneLinePerCall j1 j2 (sinkOutput ((emit g env1 ctx1 sev1 text1 body1 attrs1).writes
            ++ (emit g env2 ctx2 sev2 text2 body2 attrs2).writes)))
      ∧ ((emit g env2 ctx2 sev2 text2 body2 attrs2).writes
            ++ (emit g env1 ctx1 sev1 text1 body1 attrs1).writes
          ∈ interleavings (emit g env1 ctx1 sev1 text1 body1 attrs1).writes
            (emit g env2 ctx2 sev2 text2 body2 attrs2).writes
        ∧ oneLinePerCall j1 j2 (sinkOutput ((emit g env2 ctx2 sev2 text2 body2 attrs2).writes
            ++ (emit g env1 ctx1 sev1 text1 body1 attrs1).writes)))
      ∧ ([j1, j2, [10], [10]]
          ∈ interleavings (emit g env1 ctx1 sev1 text1 body1 attrs1).writes
            (emit g env2 ctx2 sev2 text2 body2 attrs2).writes
        ∧ sinkOutput [j1, j2, [10], [10]] = j1 ++ j2 ++ [10, 10]) := by
  rw [emit_writes_ok g env1 ctx1 sev1 text1 body1 attrs1 j1 h1,
    emit_writes_ok g env2 ctx2 sev2 text2 body2 attrs2 j2 h2]
  refine ⟨?_, ⟨?_, ?_⟩, ⟨?_, ?_⟩, ?_, ?_⟩
  · intro s hs
    simp only [interleavings, List.map_cons, List.map_nil, List.cons_append, List.nil_append,
      List.mem_cons, List.mem_singleton, List.not_mem_nil, or_false] at hs
    rcases hs with rfl | rfl | rfl | rfl | rfl | rfl <;> simp [sinkOutput]
  · simp [interleavings]
  · simp [oneLinePerCall, sinkOutput]
  · simp [interleavings]
  · simp [oneLinePerCall, sinkOutput]
  · simp [interleavings]
  · simp [sinkOutput]

/-- Witness of `concurrent_writes`: two emissions with the JSON texts `{}` and
`[]`, written one call after the other. -/
theorem concurrent_writes_witness :
    oneLinePerCall [123, 125] [91, 93]
      (sinkOutput ((emit ⟨"svc", "1.0"⟩ ⟨"0.1.0", 1, fun _ => .ok [123, 125]⟩ ⟨none⟩
          SeverityNumber_SEVERITY_NUMBER_INFO "INFO" "a" none).writes
        ++ (emit ⟨"svc", "1.0"⟩ ⟨"0.1.0", 2, fun _ => .ok [91, 93]⟩ ⟨none⟩
          SeverityNumber_SEVERITY_NUMBER_WARN "WARN" "b" none).writes)) :=
  (concurrent_writes ⟨"svc", "1.0"⟩ ⟨"0.1.0", 1, fun _ => .ok [123, 125]⟩
    ⟨"0.1.0", 2, fun _ => .ok [91, 93]⟩ ⟨none⟩ ⟨none⟩
    SeverityNumber_SEVERITY_NUMBER_INFO SeverityNumber_SEVERITY_NUMBER_WARN "INFO" "WARN"
    "a" "b" none none [123, 125] [91, 93] rfl rfl).2.1.2

/-! ## Keys of the entries produced -/

theorem anyKeysNonEmptyList_iff (l : List AnyValue) :
    AnyValue.keysNonEmptyList l = true ↔ ∀ a ∈ l, AnyValue.keysNonEmpty a = true := by
  induction l with
  | nil => simp [AnyValue.keysNonEmptyList]
  | cons x xs ih => simp [AnyValue.keysNonEmptyList, ih]

theorem kvKeysNonEmptyList_iff (l : List KeyValue) :
    KeyValue.keysNonEmptyList l = true
      ↔ ∀ kv ∈ l, kv.Key ≠ "" ∧ AnyValue.keysNonEmpty kv.Value = true := by
  induction l with
  | nil => simp [KeyValue.keysNonEmptyList]
  | cons x xs ih =>
    cases x with
    | mk k v =>
      simp [KeyValue.keysNonEmptyList, KeyValue.keysNonEmpty, KeyValue.Key, KeyValue.Value, ih]

theorem goKeysNonEmptyList_iff (l : List GoValue) :
    GoValue.keysNonEmptyList l = true ↔ ∀ v ∈ l, GoValue.keysNonEmpty v = true := by
  induction l with
  | nil => simp [GoValue.keysNonEmptyList]
  | cons x xs ih => simp [GoValue.keysNonEmptyList, ih]

theorem goKeysNonEmptyEntries_iff (l : List (String × GoValue)) :
    GoValue.keysNonEmptyEntries l = true
      ↔ ∀ e ∈ l, e.1 ≠ "" ∧ GoValue.keysNonEmpty e.2 = true := by
  induction l with
  | nil => simp [GoValue.keysNonEmptyEntries]
  | cons x xs ih =>
    rcases x with ⟨k, v⟩
    simp [GoValue.keysNonEmptyEntries, ih]

theorem entries_keysNonEmpty (m : List (String × GoValue))
    (ih : ∀ e ∈ m, (AnyValue.keysNonEmpty (toAnyValue e.2) = true
      ↔ GoValue.keysNonEmpty e.2 = true)) :
    KeyValue.keysNonEmptyList (m.map fun e => KeyValue.mk e.1 (toAnyValue e.2)) = true
      ↔ GoValue.keysNonEmptyEntries m = true := by
  rw [kvKeysNonEmptyList_iff, goKeysNonEmptyEntries_iff]
  constructor
  · intro h e he
    have := h _ (List.mem_map_of_mem (fun e : String × GoValue =>
      KeyValue.mk e.1 (toAnyValue e.2)) he)
    exact ⟨this.1, (ih e he).1 this.2⟩
  · intro h kv hkv
    obtain ⟨e, he, rfl⟩ := List.mem_map.1 hkv
    exact ⟨(h e he).1, (ih e he).2 (h e he).2⟩

theorem toAnyValue_keysNonEmpty_aux (n : Nat) :
    ∀ v : GoValue, sizeOf v ≤ n →
      (AnyValue.keysNonEmpty (toAnyValue v) = true ↔ GoValue.keysNonEmpty v = true) := by
  induction n with
  | zero =>
    intro v h
    cases v <;> simp at h
  | succ n ih =>
    intro v h
    cases v with
    | sliceAny val =>
      rw [toAnyValue_sliceAny, AnyValue.keysNonEmpty, GoValue.keysNonEmpty,
        anyKeysNonEmptyList_iff, goKeysNonEmptyList_iff]
      simp at h
      constructor
      · intro hh x hx
        have := List.sizeOf_lt_of_mem hx
        exact (ih x (by omega)).1 (hh _ (List.mem_map_of_mem toAnyValue hx))
      · intro hh a ha
        obtain ⟨x, hx, rfl⟩ := List.mem_map.1 ha
        have := List.sizeOf_lt_of_mem hx
        exact (ih x (by omega)).2 (hh x hx)
    | sliceString val =>
      simp [toAnyValue_sliceString, AnyValue.keysNonEmpty, GoValue.keysNonEmpty,
        anyKeysNonEmptyList_iff, toAnyValue]
    | sliceInt val =>
      simp [toAnyValue_sliceInt, AnyValue.keysNonEmpty, GoValue.keysNonEmpty,
        anyKeysNonEmptyList_iff, toAnyValue]
    | mapStringAny val =>
      rw [toAnyValue_mapStringAny, AnyValue.keysNonEmpty, GoValue.keysNonEmpty]
      simp at h
      apply entries_keysNonEmpty
      intro e he
      have := List.sizeOf_lt_of_mem he
      have hs : sizeOf e = 1 + sizeOf e.1 + sizeOf e.2 := by
        rcases e with ⟨k, v⟩
        rfl
      exact ih e.2 (by omega)
    | _ => simp [toAnyValue, AnyValue.keysNonEmpty, GoValue.keysNonEmpty]

/-- Claim C17, refuted as stated: a Go map may have the empty string as a key,
and both `emit` and `toAnyValue` copy it: the attribute mapping with the one
entry `"" : 1` gives a record whose only attribute has the empty key, and the
same map as a value gives a `kvlistValue` whose only entry has the empty key. -/
theorem empty_key_is_copied :
    (emit ⟨"svc", "1.0"⟩ ⟨"0.1.0", 0, fun _ => .ok []⟩ ⟨none⟩
        SeverityNumber_SEVERITY_NUMBER_INFO "INFO" "hello"
        (some [("", .int 1)])).logRecord.Attributes = [KeyValue.mk "" (.intValue 1)]
      ∧ (KeyValue.mk "" (.intValue 1)).Key = ""
      ∧ toAnyValue (.mapStringAny [("", .int 1)]) = .kvlistValue [KeyValue.mk "" (.intValue 1)]
      ∧ KeyValue.keysNonEmpty (KeyValue.mk "" (.intValue 1)) = false := by
  refine ⟨?_, rfl, ?_, ?_⟩
  · simp [emit_Attributes, MapStringAny.range, toAnyValue, int64]
  · simp [toAnyValue_mapStringAny, toAnyValue, int64]
  · simp [KeyValue.keysNonEmpty]

/-- Claim C17, amended: every `KeyValue` produced has the key of the mapping
entry it was built from, unchanged.  So the keys of a record's attributes are
the keys of the attribute mapping, and the entries of the attributes and of
every map built by `toAnyValue`, at any nesting depth, all have a non-empty
key exactly when every key of the caller-supplied mapping and of every nested
mapping is non-empty. -/
theorem keys_are_copied (g : Globals) (env : Env) (ctx : Context) (severityNumber : Int)
    (severityText body : String) (attrs : MapStringAny) (v : GoValue) :
    (emit g env ctx severityNumber severityText body attrs).logRecord.Attributes.map KeyValue.Key
        = keys attrs.range
      ∧ (KeyValue.keysNonEmptyList
            (emit g env ctx severityNumber severityText body attrs).logRecord.Attributes = true
          ↔ GoValue.keysNonEmptyEntries attrs.range = true)
      ∧ (AnyValue.keysNonEmpty (toAnyValue v) = true ↔ GoValue.keysNonEmpty v = true) := by
  rw [emit_Attributes]
  refine ⟨?_, ?_, toAnyValue_keysNonEmpty_aux (sizeOf v) v (le_refl _)⟩
  · simp [keys, List.map_map, Function.comp_def, KeyValue.Key]
  · apply entries_keysNonEmpty
    intro e _
    exact toAnyValue_keysNonEmpty_aux (sizeOf e.2) e.2 (le_refl _)

/-! ## Variadic attributes -/

/-- Claim C18: a leveled entry point called with two or more attribute mappings
uses only the first: it does exactly what it does when called with the first
mapping alone, and the attributes of its record are built from the entries of
the first mapping only. -/
theorem leveled_first_mapping_only (g : Globals) (env : Env) (ctx : Context) (body : String)
    (a b : MapStringAny) (rest : List MapStringAny) :
    (Debug g env ctx body (a :: b :: rest) = Debug g env ctx body [a]
        ∧ Info g env ctx body (a :: b :: rest) = Info g env ctx body [a]
        ∧ Warn g env ctx body (a :: b :: rest) = Warn g env ctx body [a]
        ∧ Error g env ctx body (a :: b :: rest) = Error g env ctx body [a])
      ∧ (∀ e ∈ [Debug g env ctx body (a :: b :: rest), Info g env ctx body (a :: b :: rest),
            Warn g env ctx body (a :: b :: rest), Error g env ctx body (a :: b :: rest)],
          e.logRecord.Attributes = a.range.map fun x => KeyValue.mk x.1 (toAnyValue x.2)) := by
  refine ⟨⟨rfl, rfl, rfl, rfl⟩, ?_⟩
  intro e he
  simp only [List.mem_cons, List.mem_singleton, List.not_mem_nil, or_false] at he
  rcases he with rfl | rfl | rfl | rfl <;>
    simp [Debug, Info, Warn, Error, emit_Attributes]

/-! ## The homogeneous sequence cases -/

/-- Claim C19: the encoding of a `[]string`, and of a `[]int`, is the encoding
of the `[]any` holding the same elements in the same order; so the encoding of
a `[]string` is an array of `stringValue` elements and the encoding of a
`[]int` an array of `intValue` elements. -/
theorem toAnyValue_homogeneous (ss : List String) (ns : List Int) :
    toAnyValue (.sliceString ss) = toAnyValue (.sliceAny (ss.map GoValue.string))
      ∧ toAnyValue (.sliceInt ns) = toAnyValue (.sliceAny (ns.map GoValue.int))
      ∧ (∃ ys, toAnyValue (.sliceString ss) = .arrayValue ys
          ∧ ∀ y ∈ ys, y.variant? = some Variant.String)
      ∧ (∃ ys, toAnyValue (.sliceInt ns) = .arrayValue ys
          ∧ ∀ y ∈ ys, y.variant? = some Variant.Int) := by
  refine ⟨?_, ?_, ⟨_, toAnyValue_sliceString ss, ?_⟩, ⟨_, toAnyValue_sliceInt ns, ?_⟩⟩
  · rw [toAnyValue_sliceString, toAnyValue_sliceAny, List.map_map]
    rfl
  · rw [toAnyValue_sliceInt, toAnyValue_sliceAny, List.map_map]
    rfl
  · intro y hy
    obtain ⟨x, _, rfl⟩ := List.mem_map.1 hy
    simp [toAnyValue, AnyValue.variant?]
  · intro y hy
    obtain ⟨x, _, rfl⟩ := List.mem_map.1 hy
    simp [toAnyValue, AnyValue.variant?]

end PinkOtel
